import Mathlib

/-!
Verification development for the FumoFinder dispatch core.

The Go source is shallowly embedded: `float64` values (timestamps, thresholds,
similarities, episode numbers) are modelled as rationals `ℚ`, since every claim
under study only involves order comparisons, addition/subtraction and decimal
parsing/formatting, all of which the finite doubles occurring here perform
exactly like the rationals.  Maps guarded by mutexes become plain functions or
lists with explicit state passing; channels become lists with an explicit
capacity; the pseudo-random choice Go's `select` makes between several ready
cases becomes an explicit `SelectPick` parameter.
-/

/-- Round a rational to the nearest integer with ties to even, the rounding
`fmt.Sprintf("%.0f", x)` applies to a float. -/
def roundHalfEven (q : ℚ) : ℤ :=
  let f : ℤ := ⌊q⌋
  let r : ℚ := q - f
  if r < 1/2 then f
  else if 1/2 < r then f + 1
  else if f % 2 = 0 then f else f + 1

/-- Model of Go `fmt.Sprintf("%.0f", q)`: decimal rendering of the rational
rounded to an integer (ties to even). -/
def fmtF0 (q : ℚ) : String := toString (roundHalfEven q)

/-- Value of a list of decimal digit characters, most significant first. -/
def digitsVal (ds : List Char) : ℕ :=
  ds.foldl (fun a c => 10 * a + (c.toNat - 48)) 0

/-- Model of Go `strconv.ParseFloat` on the decimal grammar: optional sign,
digits with an optional fractional part, optional decimal exponent.  Returns
`none` exactly when the string is not a decimal number, which is the only
aspect of `ParseFloat` the episode-number code depends on. -/
def goParseFloat (s : String) : Option ℚ :=
  let cs := s.data
  let signRest : ℚ × List Char :=
    match cs with
    | '-' :: rest => (-1, rest)
    | '+' :: rest => (1, rest)
    | _ => (1, cs)
  let sign := signRest.1
  let afterSign := signRest.2
  let ipSplit := afterSign.span Char.isDigit
  let ip := ipSplit.1
  let fpSplit : List Char × List Char :=
    match ipSplit.2 with
    | '.' :: rest => rest.span Char.isDigit
    | other => ([], other)
  let fp := fpSplit.1
  if ip.isEmpty && fp.isEmpty then none
  else
    let mant : ℚ := (digitsVal ip : ℚ) + (digitsVal fp : ℚ) / ((10 : ℚ) ^ fp.length)
    match fpSplit.2 with
    | [] => some (sign * mant)
    | 'e' :: rest =>
      let esignRest : ℤ × List Char :=
        match rest with
        | '-' :: r => (-1, r)
        | '+' :: r => (1, r)
        | _ => (1, rest)
      let edSplit := esignRest.2.span Char.isDigit
      if edSplit.1.isEmpty || !edSplit.2.isEmpty then none
      else some (sign * mant * (10 : ℚ) ^ (esignRest.1 * (digitsVal edSplit.1 : ℤ)))
    | 'E' :: rest =>
      let esignRest : ℤ × List Char :=
        match rest with
        | '-' :: r => (-1, r)
        | '+' :: r => (1, r)
        | _ => (1, rest)
      let edSplit := esignRest.2.span Char.isDigit
      if edSplit.1.isEmpty || !edSplit.2.isEmpty then none
      else some (sign * mant * (10 : ℚ) ^ (esignRest.1 * (digitsVal edSplit.1 : ℤ)))
    | _ => none

/-- Source `internal/model/response.go`: `EpisodeNumber` with a numeric field and the
raw string form. -/
structure EpisodeNumber where
  Number : ℚ
  Raw : String
deriving DecidableEq, Repr

/-- A JSON `episode` value as the trace.moe contract allows it: a bare number
or a string.  (A value of any other JSON shape makes `UnmarshalJSON` return an
error and is outside the decoded-value claims.) -/
inductive EpisodeJson where
  | num (n : ℚ)
  | str (s : String)
deriving DecidableEq, Repr

/-- Model of `EpisodeNumber.UnmarshalJSON` (internal/model/response.go): a JSON number
is stored in `Number` with `Raw` its `%.0f` rendering; a JSON string is first
tried with `strconv.ParseFloat`, falling back to storing the raw string
verbatim (with `Number` left at its zero value). -/
def decodeEpisode : EpisodeJson → EpisodeNumber
  | .num n => ⟨n, fmtF0 n⟩
  | .str s =>
    match goParseFloat s with
    | some n => ⟨n, fmtF0 n⟩
    | none => ⟨0, s⟩

/-- Model of the `EpisodeNumber.String` method (internal/model/response.go): display text is the
`%.0f` rendering of `Number` when it is nonzero, otherwise the raw string. -/
def episodeDisplay (e : EpisodeNumber) : String :=
  if e.Number ≠ 0 then fmtF0 e.Number else e.Raw

/-- Whether a JSON episode value has a numeric interpretation: it is a number,
or a string `ParseFloat` accepts. -/
def EpisodeJson.isNumeric : EpisodeJson → Bool
  | .num _ => true
  | .str s => (goParseFloat s).isSome

/-- Origin classification recoverable from a decoded `EpisodeNumber`: the
value records a numeric origin iff its `Number` is nonzero or its `Raw` text
itself parses as a number. -/
def EpisodeNumber.numericOrigin (e : EpisodeNumber) : Bool :=
  (e.Number ≠ 0 : Bool) || (goParseFloat e.Raw).isSome

/-- Source `internal/identifier/episode_identifier.go` lines 530-532: the timestamp
window test on a candidate: inside `[From, To]`, or within `threshold` before
`From`, or within `threshold` after `To`. -/
def timestampAccept (timestampSec tFrom tTo threshold : ℚ) : Bool :=
  (tFrom ≤ timestampSec && timestampSec ≤ tTo) ||
  (tFrom - threshold ≤ timestampSec && timestampSec < tFrom) ||
  (tTo < timestampSec && timestampSec ≤ tTo + threshold)

/-- Source `internal/model/response.go`: `Title`. -/
structure Title where
  Native : String
  Romaji : String
  English : String
deriving DecidableEq, Repr

/-- Source `internal/model/response.go`: `AnilistInfo` (the structured branch; the
raw-fallback branch of its `UnmarshalJSON` is unexercised by the claims). -/
structure AnilistInfo where
  ID : ℤ
  IDMal : ℤ
  Title : Title
  Synonyms : List String
  IsAdult : Bool
deriving DecidableEq, Repr

/-- Source `internal/model/response.go`: `TraceMoeResult`, one ranked candidate. -/
structure TraceMoeResult where
  Anilist : AnilistInfo
  Filename : String
  Episode : EpisodeNumber
  From : ℚ
  To : ℚ
  Similarity : ℚ
  Video : String
  Image : String
deriving DecidableEq, Repr

/-- Model of Go `fmt.Sprintf("%.2f", q)`: the rational rounded to two decimal
places (ties to even) rendered with exactly two fractional digits. -/
def fmtF2 (q : ℚ) : String :=
  let n : ℤ := roundHalfEven (q * 100)
  let sign := if n < 0 then "-" else ""
  let a := n.natAbs
  let ipart := toString (a / 100)
  let fpart := a % 100
  let fstr := (if fpart < 10 then "0" else "") ++ toString fpart
  sign ++ ipart ++ "." ++ fstr

/-- Source `internal/identifier/episode_identifier.go`: `MatchInfo`, the stored
record of one accepted candidate. -/
structure MatchInfo where
  AnilistID : ℤ
  MalID : ℤ
  TitleNative : String
  TitleRomaji : String
  TitleEnglish : String
  Synonyms : List String
  IsAdult : Bool
  Episode : EpisodeNumber
  Similarity : ℚ
  Timestamp : ℚ
  From : ℚ
  To : ℚ
  VideoName : String
  FrameName : String
  MatchedRange : String
  ProxyUsed : String
  VideoURL : String
  ImageURL : String
deriving DecidableEq, Repr

/-- Model of `IdentifyEpisode` lines 538-557: the `MatchInfo` literal built on
acceptance.  Note `Similarity` stores `match.Similarity * 100`. -/
def mkMatchInfo (m : TraceMoeResult) (timestampSec : ℚ)
    (videoName frameName proxyURL : String) : MatchInfo :=
  { AnilistID := m.Anilist.ID
    MalID := m.Anilist.IDMal
    TitleNative := m.Anilist.Title.Native
    TitleRomaji := m.Anilist.Title.Romaji
    TitleEnglish := m.Anilist.Title.English
    Synonyms := m.Anilist.Synonyms
    IsAdult := m.Anilist.IsAdult
    Episode := m.Episode
    Similarity := m.Similarity * 100
    Timestamp := timestampSec
    From := m.From
    To := m.To
    VideoName := videoName
    FrameName := frameName
    MatchedRange := fmtF2 m.From ++ " to " ++ fmtF2 m.To
    ProxyUsed := proxyURL
    VideoURL := m.Video
    ImageURL := m.Image }

/-- One rejection reason collected by the loop in `IdentifyEpisode`; the
constructors carry the data interpolated into the two `reasons` format
strings (lines 523-525 and 592-594), string formatting elided. -/
inductive Reason where
  | anilistMismatch (expected found : ℤ)
  | timestampMismatch (timestampSec tFrom tTo threshold : ℚ)
deriving DecidableEq, Repr

/-- State of the candidate loop of `IdentifyEpisode` when it finishes: the
accepted candidate if any, the rejection reasons collected before it stopped,
and the `foundPotentialMatch` flag. -/
structure EvalOutcome where
  accepted : Option TraceMoeResult
  reasons : List Reason
  foundPotentialMatch : Bool
deriving DecidableEq, Repr

/-- Model of `IdentifyEpisode` lines 519-596: iterate over the candidates in response
order; a candidate failing the AniList-ID filter contributes a mismatch
reason; the first remaining candidate passing the timestamp window is
accepted and iteration stops; a candidate missing the window contributes a
reason and sets `foundPotentialMatch`. -/
def evalCandidates (aniListID : ℤ) (timestampSec threshold : ℚ) :
    List TraceMoeResult → EvalOutcome
  | [] => ⟨none, [], false⟩
  | m :: rest =>
    if aniListID ≠ 0 ∧ aniListID ≠ m.Anilist.ID then
      let o := evalCandidates aniListID timestampSec threshold rest
      ⟨o.accepted, .anilistMismatch aniListID m.Anilist.ID :: o.reasons,
        o.foundPotentialMatch⟩
    else if timestampAccept timestampSec m.From m.To threshold then
      ⟨some m, [], false⟩
    else
      let o := evalCandidates aniListID timestampSec threshold rest
      ⟨o.accepted, .timestampMismatch timestampSec m.From m.To threshold :: o.reasons,
        true⟩

/-- The full acceptance test an individual candidate must pass: the AniList-ID
filter (vacuous when the filter is 0) and the timestamp window. -/
def acceptsCandidate (aniListID : ℤ) (timestampSec threshold : ℚ)
    (m : TraceMoeResult) : Bool :=
  (aniListID == 0 || aniListID == m.Anilist.ID) &&
    timestampAccept timestampSec m.From m.To threshold

/-- The single reason the loop collects for a candidate it does not accept. -/
def reasonFor (aniListID : ℤ) (timestampSec threshold : ℚ)
    (m : TraceMoeResult) : Reason :=
  if aniListID ≠ 0 ∧ aniListID ≠ m.Anilist.ID then
    .anilistMismatch aniListID m.Anilist.ID
  else
    .timestampMismatch timestampSec m.From m.To threshold

/-- The diagnostic `IdentifyEpisode` prints when no candidate is accepted
(lines 598-610): the first collected reason together with the reason count
when `foundPotentialMatch` is set and reasons exist, a generic
no-potential-matches message otherwise. -/
inductive Diagnostic where
  | surfaceReason (first : Reason) (checked : ℕ)
  | genericNoMatch
deriving DecidableEq, Repr

/-- The observable result of one `IdentifyEpisode` call. -/
structure IdentifyResult where
  returnedSimilarity : ℚ
  returnedError : Bool
  appendedMatches : List MatchInfo
  diagnostic : Option Diagnostic
deriving DecidableEq, Repr

/-- Model of `IdentifyEpisode` as a whole: `callError` models the early error returns
(broken-proxy guard, unreadable frame, failed request, undecodable response,
lines 474-508), all of which happen before any candidate is examined or any
match appended.  Otherwise the candidate loop runs: on acceptance the built
`MatchInfo` is appended to `Matches` and the raw similarity returned with a
nil error; with no acceptance nothing is appended, similarity 0 and a nil
error are returned, and the no-match diagnostic is printed. -/
def identifyEpisode (aniListID : ℤ) (timestampSec threshold : ℚ)
    (videoName frameName proxyURL : String) (callError : Bool)
    (results : List TraceMoeResult) : IdentifyResult :=
  if callError then ⟨0, true, [], none⟩
  else
    let o := evalCandidates aniListID timestampSec threshold results
    match o.accepted with
    | some m =>
      ⟨m.Similarity, false, [mkMatchInfo m timestampSec videoName frameName proxyURL], none⟩
    | none =>
      match o.foundPotentialMatch, o.reasons with
      | true, r :: rs => ⟨0, false, [], some (.surfaceReason r (rs.length + 1))⟩
      | _, _ => ⟨0, false, [], some .genericNoMatch⟩


/-- State of the shared frame channel together with the two shutdown signals
of `EpisodeIdentifier`: the buffered contents and capacity of `frames`, the
`done` channel (closed or not) and the `channelClosed` atomic flag. -/
structure QueueState where
  queue : List String
  capacity : Nat
  doneClosed : Bool
  channelClosed : Bool
deriving DecidableEq, Repr

/-- Resolution of the pseudo-random choice Go's `select` makes when both the
send case and the `<-done` case are ready at once. -/
inductive SelectPick where
  | send
  | skip
deriving DecidableEq, Repr

/-- Model of `SafeSend` (episode_identifier.go lines 336-350): under the send mutex,
if the channel is not flagged closed, run a `select` over sending the frame,
receiving from `done`, and a non-blocking `default`.  A case is ready when the
buffer has room (send) or `done` has been closed (receive); with several ready
cases Go picks one pseudo-randomly (`pick`); with none the `default` case
drops the frame.  Returns the new queue state and whether the frame was
sent. -/
def safeSend (q : QueueState) (frame : String) (pick : SelectPick) :
    QueueState × Bool :=
  if q.channelClosed then (q, false)
  else
    match decide (q.queue.length < q.capacity), q.doneClosed with
    | true, false => ({ q with queue := q.queue ++ [frame] }, true)
    | true, true =>
      match pick with
      | .send => ({ q with queue := q.queue ++ [frame] }, true)
      | .skip => (q, false)
    | false, _ => (q, false)

/-- The registry portion of `EpisodeIdentifier` state: per-path fail counters,
the broken flags, and the pool of client paths (each `http.Client` identified
by its proxy URL, as `getClientByProxyURL` does). -/
structure IdState where
  failCounts : String → Nat
  brokenProxies : String → Bool
  clients : List String

/-- Model of `handleProxyFailure` (episode_identifier.go lines 443-459): increment the
path's fail counter; once the new count reaches 3, flag the path broken,
delete its client from the pool, and requeue the failing frame with
`SafeSend`; below 3 nothing else changes.  Returns the new registry state,
the new queue state, and whether the frame was actually sent. -/
def handleProxyFailure (s : IdState) (q : QueueState)
    (proxyURL frame : String) (pick : SelectPick) :
    IdState × QueueState × Bool :=
  let fc := Function.update s.failCounts proxyURL (s.failCounts proxyURL + 1)
  if fc proxyURL ≥ 3 then
    let s2 : IdState :=
      { failCounts := fc
        brokenProxies := Function.update s.brokenProxies proxyURL true
        clients := s.clients.erase proxyURL }
    let qs := safeSend q frame pick
    (s2, qs.1, qs.2)
  else
    ({ s with failCounts := fc }, q, false)

/-- What a worker does right after dequeuing a frame (`processFrames` lines
370-384): with the channel closed and drained it exits; with its own path
flagged broken it exits at once, the dequeued frame neither processed nor
requeued; otherwise it goes on to process the frame. -/
inductive WorkerAction where
  | exitChannelClosed
  | exitBrokenLosingFrame (frame : String)
  | process (frame : String)
deriving DecidableEq, Repr

/-- One receive step of the worker loop in `processFrames`: dequeue from the
shared channel and apply the broken-path check before any processing. -/
def workerStep (s : IdState) (proxyURL : String) (queue : List String) :
    WorkerAction × List String :=
  match queue with
  | [] => (.exitChannelClosed, [])
  | frame :: rest =>
    if s.brokenProxies proxyURL then (.exitBrokenLosingFrame frame, rest)
    else (.process frame, rest)

/-- How one frame ends up under the direct-connection policy. -/
inductive FrameOutcome where
  | counted (sim : ℚ)
  | noMatch
  | dropped
deriving DecidableEq, Repr

/-- Result of handling one frame on the direct path: its outcome, how many
`IdentifyEpisode` calls were made, and how many `SafeSend` requeues were
issued. -/
structure DirectResult where
  outcome : FrameOutcome
  identifyCalls : Nat
  requeues : Nat
deriving DecidableEq, Repr

/-- The retry loop of `processFrames` (lines 398-409) for the direct
connection: up to 3 further `IdentifyEpisode` calls, stopping early as soon
as one returns a nil error and positive similarity.  `calls k` is the
`(error?, similarity)` outcome of the k-th call on this frame.  Returns the
final `(error?, similarity)` pair and the number of retries used. -/
def directRetries (calls : Nat → Bool × ℚ) : (Bool × ℚ) × Nat :=
  let r1 := calls 1
  if !r1.1 && decide (r1.2 > 0) then (r1, 1)
  else
    let r2 := calls 2
    if !r2.1 && decide (r2.2 > 0) then (r2, 2)
    else (calls 3, 3)

/-- The direct-connection branch of the worker body (`processFrames` lines
391-429): the initial call `calls 0`; on error, the in-place retry loop and
then the drop check; the no-match check; and the processed-counter increment
for a positive-similarity match.  No branch of this code path invokes
`SafeSend`, so `requeues` is 0 throughout, as in the source. -/
def processFrameDirect (calls : Nat → Bool × ℚ) : DirectResult :=
  let r0 := calls 0
  if r0.1 then
    let rr := directRetries calls
    if rr.1.1 || decide (rr.1.2 = 0) then ⟨.dropped, rr.2 + 1, 0⟩
    else ⟨.counted rr.1.2, rr.2 + 1, 0⟩
  else if decide (r0.2 = 0) then ⟨.noMatch, 1, 0⟩
  else ⟨.counted r0.2, 1, 0⟩

/-- What one frame contributes on a proxy path: the `MatchInfo` records
appended to `Matches` and the increment applied to the path's
`frameCounts` entry. -/
structure FrameStepResult where
  appended : List MatchInfo
  counterInc : Nat
deriving DecidableEq, Repr

/-- The proxy-path worker body for one frame (`processFrames` lines 386-429):
run `IdentifyEpisode`; an error goes to the failure handler with no counter
change; similarity 0 is a no-match with no counter change; otherwise the
path's processed counter is incremented once. -/
def processFrameProxy (aniListID : ℤ) (timestampSec threshold : ℚ)
    (videoName frameName proxyURL : String) (callError : Bool)
    (results : List TraceMoeResult) : FrameStepResult :=
  let r := identifyEpisode aniListID timestampSec threshold videoName
    frameName proxyURL callError results
  if r.returnedError then ⟨r.appendedMatches, 0⟩
  else if decide (r.returnedSimilarity = 0) then ⟨r.appendedMatches, 0⟩
  else ⟨r.appendedMatches, 1⟩

/-- The data determining how one dequeued frame is processed: its extracted
timestamp, names, and the recognition call's fate. -/
structure FrameInput where
  timestampSec : ℚ
  videoName : String
  frameName : String
  callError : Bool
  results : List TraceMoeResult

/-- A sequence of frames processed through one proxy path: concatenated
appended records and the accumulated processed counter. -/
def runProxyFrames (aniListID : ℤ) (threshold : ℚ) (proxyURL : String) :
    List FrameInput → FrameStepResult
  | [] => ⟨[], 0⟩
  | fi :: rest =>
    let r := processFrameProxy aniListID fi.timestampSec threshold
      fi.videoName fi.frameName proxyURL fi.callError fi.results
    let rr := runProxyFrames aniListID threshold proxyURL rest
    ⟨r.appended ++ rr.appended, r.counterInc + rr.counterInc⟩

/-- A concrete candidate used by witnesses and counterexamples. -/
def sampleCandidate (id : ℤ) (tFrom tTo sim : ℚ) : TraceMoeResult :=
  { Anilist :=
      { ID := id
        IDMal := 7
        Title := { Native := "nat", Romaji := "rom", English := "eng" }
        Synonyms := []
        IsAdult := false }
    Filename := "ep.mkv"
    Episode := ⟨1, "1"⟩
    From := tFrom
    To := tTo
    Similarity := sim
    Video := "video-url"
    Image := "image-url" }

section

attribute [local semireducible] Rat.add Rat.mul Rat.inv Rat.sub

/-- Propositional reading of `timestampAccept`: the literal three-interval
disjunction of the source condition. -/
theorem timestampAccept_iff (t tFrom tTo th : ℚ) :
    timestampAccept t tFrom tTo th = true ↔
      (tFrom ≤ t ∧ t ≤ tTo) ∨ (tFrom - th ≤ t ∧ t < tFrom) ∨
        (tTo < t ∧ t ≤ tTo + th) := by
  simp [timestampAccept, or_assoc]

/-- C1: for every frame timestamp `t`, candidate range `[from, to]` (a range,
so `from ≤ to`) and threshold `th ≥ 0` seconds, the evaluator's window test
accepts iff `from - th ≤ t ≤ to + th`, and the acceptance region is exactly
the union of `[from, to]`, `[from - th, from)` and `(to, to + th]`. -/
theorem C1_timestamp_window (t tFrom tTo th : ℚ)
    (hrange : tFrom ≤ tTo) (hth : 0 ≤ th) :
    (timestampAccept t tFrom tTo th = true ↔ tFrom - th ≤ t ∧ t ≤ tTo + th)
    ∧ (timestampAccept t tFrom tTo th = true ↔
        (tFrom ≤ t ∧ t ≤ tTo) ∨ (tFrom - th ≤ t ∧ t < tFrom) ∨
          (tTo < t ∧ t ≤ tTo + th)) := by
  refine ⟨(timestampAccept_iff t tFrom tTo th).trans ?_, timestampAccept_iff t tFrom tTo th⟩
  constructor
  · rintro (⟨h1, h2⟩ | ⟨h1, h2⟩ | ⟨h1, h2⟩) <;> constructor <;> linarith
  · rintro ⟨h1, h2⟩
    rcases lt_or_le t tFrom with h | h
    · exact Or.inr (Or.inl ⟨h1, h⟩)
    · rcases le_or_lt t tTo with h' | h'
      · exact Or.inl ⟨h, h'⟩
      · exact Or.inr (Or.inr ⟨h', h2⟩)

/-- Witness for C1 at `t = 3`, range `[4, 10]`, threshold `2`: the frame is
accepted one second before the range start. -/
theorem C1_timestamp_window_witness :
    timestampAccept 3 4 10 2 = true ∧ ((4 : ℚ) - 2 ≤ 3 ∧ (3 : ℚ) ≤ 10 + 2) := by
  have h := C1_timestamp_window 3 4 10 2 (by decide) (by decide)
  exact ⟨h.1.mpr (by decide), by decide⟩

/-- Helper: over any candidate list the loop accepts exactly the first
element passing the acceptance test, and collects one reason per candidate
strictly before it. -/
theorem evalCandidates_accepted_reasons (aniListID : ℤ) (t th : ℚ) (rs : List TraceMoeResult) :
    (evalCandidates aniListID t th rs).accepted
        = rs.find? (acceptsCandidate aniListID t th)
    ∧ (evalCandidates aniListID t th rs).reasons
        = (rs.takeWhile (fun m => !acceptsCandidate aniListID t th m)).map
            (reasonFor aniListID t th) := by
  induction rs with
  | nil => exact ⟨rfl, rfl⟩
  | cons m rest ih =>
    by_cases h1 : aniListID ≠ 0 ∧ aniListID ≠ m.Anilist.ID
    · have hacc : acceptsCandidate aniListID t th m = false := by
        simp only [acceptsCandidate, Bool.and_eq_false_iff, Bool.or_eq_false_iff,
          beq_eq_false_iff_ne]
        exact Or.inl ⟨h1.1, h1.2⟩
      simp [evalCandidates, h1, List.find?_cons, hacc, List.takeWhile_cons,
        reasonFor, ih.1, ih.2]
    · have htitle : (aniListID == 0 || aniListID == m.Anilist.ID) = true := by
        rcases not_and_or.mp h1 with h | h
        · simp [not_not.mp h]
        · simp [not_not.mp h]
      cases h2 : timestampAccept t m.From m.To th with
      | true =>
        have hacc : acceptsCandidate aniListID t th m = true := by
          simp [acceptsCandidate, htitle, h2]
        simp [evalCandidates, h1, h2, List.find?_cons, hacc, List.takeWhile_cons]
      | false =>
        have hacc : acceptsCandidate aniListID t th m = false := by
          simp [acceptsCandidate, htitle, h2]
        simp [evalCandidates, h1, h2, List.find?_cons, hacc, List.takeWhile_cons,
          reasonFor, ih.1, ih.2]

/-- C2: the evaluator is first-fit: over any ordered candidate list, the
accepted candidate is exactly the first list element passing the acceptance
test (`List.find?`), independent of the similarity of any later candidate,
and the collected reasons stop at the accepted candidate (evaluation goes no
further). -/
theorem C2_first_fit (aniListID : ℤ) (t th : ℚ) (rs : List TraceMoeResult) :
    (evalCandidates aniListID t th rs).accepted
        = rs.find? (acceptsCandidate aniListID t th)
    ∧ (evalCandidates aniListID t th rs).reasons
        = (rs.takeWhile (fun m => !acceptsCandidate aniListID t th m)).map
            (reasonFor aniListID t th) :=
  evalCandidates_accepted_reasons aniListID t th rs

/-- C6: decoding the JSON episode values `"5"` (numeric string), `5` (number)
and `"OVA"` (non-numeric string) and rendering them as display text yields
`"5"`, `"5"` and `"OVA"`; whenever a numeric interpretation exists it is
authoritative (the decoded `Number` carries it and, when nonzero, drives the
display, the raw text being replaced by its canonical rendering), otherwise
the raw string is preserved verbatim with `Number` at zero; and numeric and
non-numeric origins are recoverable from the decoded value. -/
theorem C6_episode_identifier :
    (episodeDisplay (decodeEpisode (.str "5")) = "5"
      ∧ episodeDisplay (decodeEpisode (.num 5)) = "5"
      ∧ episodeDisplay (decodeEpisode (.str "OVA")) = "OVA")
    ∧ (∀ s n, goParseFloat s = some n → decodeEpisode (.str s) = ⟨n, fmtF0 n⟩)
    ∧ (∀ n, decodeEpisode (.num n) = ⟨n, fmtF0 n⟩)
    ∧ (∀ s, goParseFloat s = none → decodeEpisode (.str s) = ⟨0, s⟩)
    ∧ (∀ (n : ℚ) (s : String), n ≠ 0 → episodeDisplay ⟨n, s⟩ = fmtF0 n)
    ∧ (∀ v : EpisodeJson, (decodeEpisode v).numericOrigin = v.isNumeric) := by
  refine ⟨⟨by decide, by decide, by decide⟩, ?_, ?_, ?_, ?_, ?_⟩
  · intro s n h
    simp [decodeEpisode, h]
  · intro n
    rfl
  · intro s h
    simp [decodeEpisode, h]
  · intro n s h
    simp [episodeDisplay, h]
  · intro v
    cases v with
    | num n =>
      by_cases hn : n = 0
      · subst hn
        decide
      · simp [decodeEpisode, EpisodeNumber.numericOrigin, EpisodeJson.isNumeric, hn]
    | str s =>
      cases hp : goParseFloat s with
      | none =>
        simp [decodeEpisode, hp, EpisodeNumber.numericOrigin, EpisodeJson.isNumeric]
      | some n =>
        by_cases hn : n = 0
        · subst hn
          have hdec : decodeEpisode (.str s) = ⟨0, fmtF0 0⟩ := by
            simp [decodeEpisode, hp]
          rw [hdec]
          simp [EpisodeJson.isNumeric, hp]
          decide
        · simp [decodeEpisode, hp, EpisodeNumber.numericOrigin, EpisodeJson.isNumeric, hn]

/-- Witness for C6: the universally quantified parts applied at the concrete
inputs `"12"`, `"SP"` and `7`. -/
theorem C6_episode_identifier_witness :
    decodeEpisode (.str "12") = ⟨12, fmtF0 12⟩
    ∧ decodeEpisode (.str "SP") = ⟨0, "SP"⟩
    ∧ episodeDisplay ⟨7, "unused"⟩ = fmtF0 7 :=
  ⟨C6_episode_identifier.2.1 "12" 12 (by decide),
   C6_episode_identifier.2.2.2.1 "SP" (by decide),
   C6_episode_identifier.2.2.2.2.1 7 "unused" (by decide)⟩

/-- Helper: when no candidate is accepted, the `foundPotentialMatch` flag is
set exactly when some candidate passed the AniList-ID filter. -/
theorem evalCandidates_found_iff (aniListID : ℤ) (t th : ℚ)
    (rs : List TraceMoeResult)
    (h : ∀ m ∈ rs, acceptsCandidate aniListID t th m = false) :
    (evalCandidates aniListID t th rs).foundPotentialMatch = true ↔
      ∃ m ∈ rs, (aniListID == 0 || aniListID == m.Anilist.ID) = true := by
  induction rs with
  | nil => simp [evalCandidates]
  | cons m rest ih =>
    have hm := h m (List.mem_cons_self m rest)
    have hrest : ∀ x ∈ rest, acceptsCandidate aniListID t th x = false :=
      fun x hx => h x (List.mem_cons_of_mem m hx)
    by_cases h1 : aniListID ≠ 0 ∧ aniListID ≠ m.Anilist.ID
    · have htitle : (aniListID == 0 || aniListID == m.Anilist.ID) = false := by
        simp only [Bool.or_eq_false_iff, beq_eq_false_iff_ne]
        exact ⟨h1.1, h1.2⟩
      simp [evalCandidates, h1, ih hrest, htitle]
    · have htitle : (aniListID == 0 || aniListID == m.Anilist.ID) = true := by
        rcases not_and_or.mp h1 with h0 | h0
        · simp [not_not.mp h0]
        · simp [not_not.mp h0]
      have hts : timestampAccept t m.From m.To th = false := by
        have := hm
        simp only [acceptsCandidate, htitle, Bool.true_and] at this
        exact this
      simp only [evalCandidates, if_pos, if_neg h1, hts, Bool.false_eq_true, if_false]
      constructor
      · intro _
        exact ⟨m, List.mem_cons_self m rest, htitle⟩
      · intro _
        trivial

/-- Counterexample to C5 as stated: with title filter 1 and a single
candidate carrying AniList ID 2 (time range `[0, 10]`, similarity `9/10`,
frame timestamp 100), no candidate is accepted and one rejection reason is
collected, yet the diagnostic surfaced is the generic no-potential-matches
message rather than that first collected reason. -/
theorem C5_counterexample :
    (evalCandidates 1 100 5 [sampleCandidate 2 0 10 (9/10)]).accepted = none
    ∧ (evalCandidates 1 100 5 [sampleCandidate 2 0 10 (9/10)]).reasons
        = [.anilistMismatch 1 2]
    ∧ (identifyEpisode 1 100 5 "vid" "frame.jpg" "proxy-a" false
        [sampleCandidate 2 0 10 (9/10)]).diagnostic = some .genericNoMatch
    ∧ (some Diagnostic.genericNoMatch
        ≠ some (Diagnostic.surfaceReason (.anilistMismatch 1 2) 1)) := by
  exact ⟨by decide, by decide, by decide, by decide⟩

/-- C5 amended: for every frame on which no candidate is accepted, the call
returns no match with a nil error, appends nothing to the match list, and
retains one reason per candidate; the first collected reason is surfaced
exactly when some candidate passed the title filter (so was rejected on its
timestamp); when every rejection is a title mismatch, or there are no
candidates, a generic no-potential-matches message is surfaced instead. -/
theorem C5_no_match (aniListID : ℤ) (t th : ℚ) (v f p : String)
    (rs : List TraceMoeResult)
    (h : ∀ m ∈ rs, acceptsCandidate aniListID t th m = false) :
    (identifyEpisode aniListID t th v f p false rs).returnedSimilarity = 0
    ∧ (identifyEpisode aniListID t th v f p false rs).returnedError = false
    ∧ (identifyEpisode aniListID t th v f p false rs).appendedMatches = []
    ∧ (evalCandidates aniListID t th rs).reasons
        = rs.map (reasonFor aniListID t th)
    ∧ ((evalCandidates aniListID t th rs).foundPotentialMatch = true ↔
        ∃ m ∈ rs, (aniListID == 0 || aniListID == m.Anilist.ID) = true)
    ∧ (∀ r0 rest, (evalCandidates aniListID t th rs).reasons = r0 :: rest →
        (evalCandidates aniListID t th rs).foundPotentialMatch = true →
        (identifyEpisode aniListID t th v f p false rs).diagnostic
          = some (.surfaceReason r0 (rest.length + 1)))
    ∧ ((evalCandidates aniListID t th rs).foundPotentialMatch = false →
        (identifyEpisode aniListID t th v f p false rs).diagnostic
          = some .genericNoMatch) := by
  have hfind : rs.find? (acceptsCandidate aniListID t th) = none := by
    rw [List.find?_eq_none]
    intro x hx
    simp [h x hx]
  have hacc : (evalCandidates aniListID t th rs).accepted = none :=
    (evalCandidates_accepted_reasons aniListID t th rs).1.trans hfind
  have hreasons : (evalCandidates aniListID t th rs).reasons
      = rs.map (reasonFor aniListID t th) := by
    rw [(evalCandidates_accepted_reasons aniListID t th rs).2,
      List.takeWhile_eq_self_iff.mpr]
    intro x hx
    simp [h x hx]
  refine ⟨?_, ?_, ?_, hreasons, evalCandidates_found_iff aniListID t th rs h, ?_, ?_⟩
  · simp only [identifyEpisode, if_neg Bool.false_ne_true, hacc]
    rcases hflag : (evalCandidates aniListID t th rs).foundPotentialMatch with _ | _ <;>
      rcases hr : (evalCandidates aniListID t th rs).reasons with _ | ⟨r0, rest⟩ <;> rfl
  · simp only [identifyEpisode, if_neg Bool.false_ne_true, hacc]
    rcases hflag : (evalCandidates aniListID t th rs).foundPotentialMatch with _ | _ <;>
      rcases hr : (evalCandidates aniListID t th rs).reasons with _ | ⟨r0, rest⟩ <;> rfl
  · simp only [identifyEpisode, if_neg Bool.false_ne_true, hacc]
    rcases hflag : (evalCandidates aniListID t th rs).foundPotentialMatch with _ | _ <;>
      rcases hr : (evalCandidates aniListID t th rs).reasons with _ | ⟨r0, rest⟩ <;> rfl
  · intro r0 rest hr hflag
    simp only [identifyEpisode, if_neg Bool.false_ne_true, hacc, hr, hflag]
  · intro hflag
    simp only [identifyEpisode, if_neg Bool.false_ne_true, hacc, hflag]

/-- Witness for C5 amended, at a frame whose single candidate passes the
title filter (no filter set) but misses the time window: nothing is
appended, the reason is retained, and the first collected reason is
surfaced. -/
theorem C5_no_match_witness :
    (identifyEpisode 0 100 5 "vid" "frame.jpg" "proxy-a" false
        [sampleCandidate 2 0 10 (9/10)]).appendedMatches = []
    ∧ (identifyEpisode 0 100 5 "vid" "frame.jpg" "proxy-a" false
        [sampleCandidate 2 0 10 (9/10)]).diagnostic
        = some (.surfaceReason (.timestampMismatch 100 0 10 5) 1) := by
  have h := C5_no_match 0 100 5 "vid" "frame.jpg" "proxy-a"
    [sampleCandidate 2 0 10 (9/10)] (by intro m hm; fin_cases hm; decide)
  refine ⟨h.2.2.1, ?_⟩
  exact h.2.2.2.2.2.1 (.timestampMismatch 100 0 10 5) [] (by decide) (by decide)

/-- Counterexample to C7 as stated: a candidate the service reports with
similarity `9/10` is accepted (no filter, timestamp 5 inside `[0, 10]`), and
the Match Record appended for it stores `Similarity` 90 — the ×100
percentage form — not the service-reported 0-1 value. -/
theorem C7_counterexample :
    (identifyEpisode 0 5 5 "vid" "frame.jpg" "proxy-a" false
        [sampleCandidate 2 0 10 (9/10)]).appendedMatches
      = [mkMatchInfo (sampleCandidate 2 0 10 (9/10)) 5 "vid" "frame.jpg" "proxy-a"]
    ∧ (mkMatchInfo (sampleCandidate 2 0 10 (9/10)) 5 "vid" "frame.jpg"
        "proxy-a").Similarity = 90
    ∧ (90 : ℚ) ≠ 9/10 := by
  exact ⟨by decide, by decide, by decide⟩

/-- C7 amended: every Match Record created on acceptance stores the
candidate's similarity multiplied by 100 (the same percentage form the
display output uses); the raw 0-1 service value is only returned to the
dispatch loop as the call's similarity result, it is not what the record
stores. -/
theorem C7_similarity_stored (aniListID : ℤ) (t th : ℚ) (v f p : String)
    (rs : List TraceMoeResult) (m : TraceMoeResult)
    (h : (evalCandidates aniListID t th rs).accepted = some m) :
    (identifyEpisode aniListID t th v f p false rs).appendedMatches
        = [mkMatchInfo m t v f p]
    ∧ (mkMatchInfo m t v f p).Similarity = m.Similarity * 100
    ∧ (identifyEpisode aniListID t th v f p false rs).returnedSimilarity
        = m.Similarity := by
  refine ⟨?_, rfl, ?_⟩ <;> simp [identifyEpisode, h]

/-- Witness for C7 amended at a similarity-1/2 candidate: the call returns
the raw 1/2 while the stored record holds 50. -/
theorem C7_similarity_stored_witness :
    (identifyEpisode 0 5 5 "vid" "frame.jpg" "proxy-a" false
        [sampleCandidate 2 0 10 (1/2)]).returnedSimilarity = 1/2
    ∧ (mkMatchInfo (sampleCandidate 2 0 10 (1/2)) 5 "vid" "frame.jpg"
        "proxy-a").Similarity = (1/2 : ℚ) * 100 := by
  have h := C7_similarity_stored 0 5 5 "vid" "frame.jpg" "proxy-a"
    [sampleCandidate 2 0 10 (1/2)] (sampleCandidate 2 0 10 (1/2)) (by decide)
  exact ⟨h.2.2, h.2.1⟩

/-- C3: each proxy-path failure increments that path's cumulative fail
counter and no other path's; a path at 2 accumulated failures stays usable
(not flagged broken, still in the pool, nothing requeued); the failure that
brings the count to 3 flags the path broken — terminal, since no later
failure handling ever clears the flag — removes it from the client pool, and
pushes the job that just failed back onto the shared queue (mid-dispatch the
queue, sized to the full frame count, has room and neither shutdown signal is
set, so the send succeeds). -/
theorem C3_path_retirement (s : IdState) (q : QueueState)
    (url frame : String) (pick : SelectPick)
    (hnodup : s.clients.Nodup)
    (hopen : q.channelClosed = false ∧ q.queue.length < q.capacity ∧
      q.doneClosed = false) :
    ((handleProxyFailure s q url frame pick).1.failCounts url
        = s.failCounts url + 1)
    ∧ (∀ u, u ≠ url →
        (handleProxyFailure s q url frame pick).1.failCounts u = s.failCounts u)
    ∧ (s.failCounts url + 1 = 2 →
        (handleProxyFailure s q url frame pick).1.brokenProxies = s.brokenProxies
        ∧ (handleProxyFailure s q url frame pick).1.clients = s.clients
        ∧ (handleProxyFailure s q url frame pick).2.1 = q
        ∧ (handleProxyFailure s q url frame pick).2.2 = false)
    ∧ (s.failCounts url + 1 ≥ 3 →
        (handleProxyFailure s q url frame pick).1.brokenProxies url = true
        ∧ url ∉ (handleProxyFailure s q url frame pick).1.clients
        ∧ (handleProxyFailure s q url frame pick).2.1.queue = q.queue ++ [frame]
        ∧ (handleProxyFailure s q url frame pick).2.2 = true)
    ∧ (∀ (s2 : IdState) (q2 : QueueState) (u2 f2 : String) (p2 : SelectPick),
        s2.brokenProxies url = true →
        (handleProxyFailure s2 q2 u2 f2 p2).1.brokenProxies url = true) := by
  refine ⟨?_, ?_, ?_, ?_, ?_⟩
  · simp only [handleProxyFailure]
    split <;> simp [Function.update_same]
  · intro u hu
    simp only [handleProxyFailure]
    split <;> simp [Function.update_noteq hu]
  · intro h2
    have hlt : ¬ (Function.update s.failCounts url (s.failCounts url + 1) url ≥ 3) := by
      rw [Function.update_same]
      omega
    simp only [handleProxyFailure]
    rw [if_neg hlt]
    exact ⟨rfl, rfl, rfl, rfl⟩
  · intro h3
    have hge : Function.update s.failCounts url (s.failCounts url + 1) url ≥ 3 := by
      rw [Function.update_same]
      omega
    have hsend : safeSend q frame pick
        = ({ q with queue := q.queue ++ [frame] }, true) := by
      unfold safeSend
      rw [if_neg (by simp [hopen.1])]
      simp [hopen.2.1, hopen.2.2]
    simp only [handleProxyFailure]
    rw [if_pos hge, hsend]
    refine ⟨Function.update_same url true s.brokenProxies, ?_, rfl, rfl⟩
    intro hmem
    exact (List.Nodup.mem_erase_iff hnodup).mp hmem |>.1 rfl
  · intro s2 q2 u2 f2 p2 hb
    simp only [handleProxyFailure]
    split
    · rcases eq_or_ne url u2 with h | h
      · subst h
        simp [Function.update_same]
      · simp [Function.update_noteq h, hb]
    · exact hb

/-- Witness for C3 at a path with 2 prior failures, a singleton pool and an
open, roomy queue: the third failure retires and removes the path and
requeues the frame. -/
theorem C3_path_retirement_witness :
    (handleProxyFailure ⟨fun _ => 2, fun _ => false, ["p"]⟩ ⟨[], 3, false, false⟩
        "p" "f" .skip).1.brokenProxies "p" = true
    ∧ "p" ∉ (handleProxyFailure ⟨fun _ => 2, fun _ => false, ["p"]⟩
        ⟨[], 3, false, false⟩ "p" "f" .skip).1.clients
    ∧ (handleProxyFailure ⟨fun _ => 2, fun _ => false, ["p"]⟩
        ⟨[], 3, false, false⟩ "p" "f" .skip).2.1.queue = [] ++ ["f"] := by
  have h := C3_path_retirement ⟨fun _ => 2, fun _ => false, ["p"]⟩
    ⟨[], 3, false, false⟩ "p" "f" .skip (by simp) ⟨rfl, by decide, rfl⟩
  have h3 := h.2.2.2.1 (by decide)
  exact ⟨h3.1, h3.2.1, h3.2.2.1⟩

/-- C4: on the direct connection (the only path, exempt from retirement), a
job whose initial recognition call fails is retried in place up to 3 times by
the same worker; no branch of the direct path ever requeues; and when the
initial call and all 3 retries fail, the job is dropped — the logged
drop outcome — after exactly 3 retries (4 calls in all). -/
theorem C4_direct_retry (calls : Nat → Bool × ℚ) (h0 : (calls 0).1 = true) :
    (processFrameDirect calls).requeues = 0
    ∧ 1 ≤ (processFrameDirect calls).identifyCalls
    ∧ (processFrameDirect calls).identifyCalls ≤ 4
    ∧ ((∀ k, k ≤ 3 → (calls k).1 = true) →
        processFrameDirect calls = ⟨.dropped, 4, 0⟩) := by
  have hretr : (directRetries calls).2 = 1 ∨ (directRetries calls).2 = 2 ∨
      (directRetries calls).2 = 3 := by
    simp only [directRetries]
    split
    · exact Or.inl rfl
    · split
      · exact Or.inr (Or.inl rfl)
      · exact Or.inr (Or.inr rfl)
  have hcalls : (processFrameDirect calls).identifyCalls
      = (directRetries calls).2 + 1 := by
    simp only [processFrameDirect, h0, if_true]
    split <;> rfl
  refine ⟨?_, ?_, ?_, ?_⟩
  · simp only [processFrameDirect, h0, if_true]
    split <;> rfl
  · rw [hcalls]
    omega
  · rw [hcalls]
    omega
  · intro hall
    have e1 : (calls 1).1 = true := hall 1 (by omega)
    have e2 : (calls 2).1 = true := hall 2 (by omega)
    have e3 : (calls 3).1 = true := hall 3 (by omega)
    have hd : directRetries calls = (calls 3, 3) := by
      simp only [directRetries, e1, e2, Bool.not_true, Bool.false_and,
        Bool.false_eq_true, if_false]
    simp only [processFrameDirect, h0, if_true, hd, e3, Bool.true_or]

/-- Witness for C4: a job on which every call errors is dropped after 3
retries with no requeue. -/
theorem C4_direct_retry_witness :
    processFrameDirect (fun _ => (true, 0)) = ⟨.dropped, 4, 0⟩
    ∧ (processFrameDirect (fun _ => (true, 0))).requeues = 0 := by
  have h := C4_direct_retry (fun _ => (true, 0)) rfl
  exact ⟨h.2.2.2 (fun k _ => rfl), h.1⟩

/-- Counterexample to C8 as stated: with the done signal already broadcast
but the channel not yet flagged closed and the queue with room, Go's select
has two ready cases; when its pseudo-random choice lands on the send case the
frame IS sent — a broadcast done signal alone does not force returning
without sending. -/
theorem C8_counterexample :
    (safeSend ⟨[], 1, true, false⟩ "f" .send).2 = true
    ∧ (safeSend ⟨[], 1, true, false⟩ "f" .send).1.queue = ["f"] := by
  exact ⟨rfl, rfl⟩

/-- C8 amended: the requeue is a single best-effort, non-blocking send: the
call always returns, either leaving the queue untouched with nothing sent
(the frame silently dropped) or appending the frame exactly once; the frame
is dropped whenever the channel has been flagged closed or the queue cannot
immediately accept it; and with the done signal broadcast the send is skipped
unless the queue also has room and the select's pseudo-random choice lands on
the send case. -/
theorem C8_best_effort (q : QueueState) (frame : String) (pick : SelectPick) :
    (safeSend q frame pick = (q, false)
      ∨ safeSend q frame pick = ({ q with queue := q.queue ++ [frame] }, true))
    ∧ (q.channelClosed = true → safeSend q frame pick = (q, false))
    ∧ (¬ q.queue.length < q.capacity → safeSend q frame pick = (q, false))
    ∧ (q.doneClosed = true → pick = .skip → safeSend q frame pick = (q, false))
    ∧ (q.doneClosed = true → (safeSend q frame pick).2 = true →
        q.channelClosed = false ∧ q.queue.length < q.capacity ∧ pick = .send) := by
  cases hc : q.channelClosed with
  | true => simp [safeSend, hc]
  | false =>
    cases hlt : decide (q.queue.length < q.capacity) with
    | false =>
      have hnlt : ¬ q.queue.length < q.capacity := of_decide_eq_false hlt
      cases hd : q.doneClosed <;> simp [safeSend, hc, hlt, hd, hnlt]
    | true =>
      have hltp : q.queue.length < q.capacity := of_decide_eq_true hlt
      cases hd : q.doneClosed with
      | false => simp [safeSend, hc, hlt, hd, hltp]
      | true =>
        cases pick with
        | send => simp [safeSend, hc, hlt, hd, hltp]
        | skip => simp [safeSend, hc, hlt, hd, hltp]

/-- Witness for C8 amended: a full queue drops the frame, and a closed-flag
channel drops the frame. -/
theorem C8_best_effort_witness :
    safeSend ⟨["a"], 1, false, false⟩ "f" .skip = (⟨["a"], 1, false, false⟩, false)
    ∧ safeSend ⟨[], 4, false, true⟩ "g" .send = (⟨[], 4, false, true⟩, false) := by
  exact ⟨(C8_best_effort ⟨["a"], 1, false, false⟩ "f" .skip).2.2.1 (by decide),
    (C8_best_effort ⟨[], 4, false, true⟩ "g" .send).2.1 rfl⟩

/-- C9: a worker that dequeues a frame from the shared queue and then
observes its own path flagged broken exits at once: the dequeued frame is
neither processed nor put back — it is silently lost (a loss mechanism
distinct from the best-effort requeue drop of `safeSend`). -/
theorem C9_broken_path_frame_loss (s : IdState) (url frame : String)
    (rest : List String) (h : s.brokenProxies url = true) :
    workerStep s url (frame :: rest) = (.exitBrokenLosingFrame frame, rest) := by
  simp [workerStep, h]

/-- Witness for C9 at a concrete broken path with one further queued frame. -/
theorem C9_broken_path_frame_loss_witness :
    workerStep ⟨fun _ => 3, fun _ => true, []⟩ "p" ["f1", "f2"]
      = (.exitBrokenLosingFrame "f1", ["f2"]) :=
  C9_broken_path_frame_loss ⟨fun _ => 3, fun _ => true, []⟩ "p" "f1" ["f2"] rfl

/-- Helper: with no accepted candidate, `IdentifyEpisode` reports similarity
0, no error, and appends nothing, whatever the diagnostic. -/
theorem identifyEpisode_noaccept (aniListID : ℤ) (t th : ℚ) (v f p : String)
    (rs : List TraceMoeResult)
    (hacc : (evalCandidates aniListID t th rs).accepted = none) :
    (identifyEpisode aniListID t th v f p false rs).returnedSimilarity = 0
    ∧ (identifyEpisode aniListID t th v f p false rs).returnedError = false
    ∧ (identifyEpisode aniListID t th v f p false rs).appendedMatches = [] := by
  refine ⟨?_, ?_, ?_⟩ <;>
    simp only [identifyEpisode, if_neg Bool.false_ne_true, hacc] <;>
    rcases (evalCandidates aniListID t th rs).foundPotentialMatch with _ | _ <;>
    rcases (evalCandidates aniListID t th rs).reasons with _ | ⟨r0, rest⟩ <;>
    rfl

/-- Helper: one proxy-path frame increments the processed counter exactly by
the number of positive-similarity records it appends (0 or 1), provided the
service-reported similarities are in range (nonnegative). -/
theorem processFrameProxy_counter (aniListID : ℤ) (t th : ℚ)
    (v f url : String) (ce : Bool) (rs : List TraceMoeResult)
    (h : ∀ m ∈ rs, 0 ≤ m.Similarity) :
    (processFrameProxy aniListID t th v f url ce rs).counterInc
      = ((processFrameProxy aniListID t th v f url ce rs).appended.filter
          (fun mi => decide (0 < mi.Similarity))).length := by
  cases ce with
  | true => rfl
  | false =>
    cases hacc : (evalCandidates aniListID t th rs).accepted with
    | none =>
      obtain ⟨hs, he, ha⟩ := identifyEpisode_noaccept aniListID t th v f url rs hacc
      simp [processFrameProxy, hs, he, ha]
    | some m =>
      have hmem : m ∈ rs := by
        have := (evalCandidates_accepted_reasons aniListID t th rs).1
        rw [hacc] at this
        exact List.mem_of_find?_eq_some this.symm
      have hid : identifyEpisode aniListID t th v f url false rs
          = ⟨m.Similarity, false, [mkMatchInfo m t v f url], none⟩ := by
        simp [identifyEpisode, hacc]
      by_cases hz : m.Similarity = 0
      · simp [processFrameProxy, hid, hz, mkMatchInfo]
      · have hpos : 0 < m.Similarity := lt_of_le_of_ne (h m hmem) (Ne.symm hz)
        have hpos100 : 0 < m.Similarity * 100 := by positivity
        simp [processFrameProxy, hid, hz, mkMatchInfo, hpos100]

/-- Counterexample to C10 as stated: a candidate reported with similarity
exactly 0 that passes the window is accepted — a Match Record is appended via
the path — yet the similarity-0 check in `processFrames` skips the counter
increment, so the per-path counter (0) differs from the number of Match
Records produced via the path (1). -/
theorem C10_counterexample :
    (processFrameProxy 0 5 5 "vid" "frame.jpg" "proxy-a" false
        [sampleCandidate 2 0 10 0]).appended.length = 1
    ∧ (processFrameProxy 0 5 5 "vid" "frame.jpg" "proxy-a" false
        [sampleCandidate 2 0 10 0]).counterInc = 0 := by
  exact ⟨by decide, by decide⟩

/-- C10 amended: over any sequence of frames routed through a path, the
path's processed counter is incremented exactly once per frame whose
identification produced an accepted match of positive similarity, and frames
that fail, complete with no match, or match with similarity exactly 0 leave
it unchanged: the counter equals the number of positive-similarity Match
Records produced via the path (all records, when the service honours its 0-1
similarity contract; the similarity-0 edge case appends a record without
counting it). -/
theorem C10_processed_counter (aniListID : ℤ) (th : ℚ) (url : String)
    (inputs : List FrameInput)
    (h : ∀ fi ∈ inputs, ∀ m ∈ fi.results, 0 ≤ m.Similarity) :
    (runProxyFrames aniListID th url inputs).counterInc
      = ((runProxyFrames aniListID th url inputs).appended.filter
          (fun mi => decide (0 < mi.Similarity))).length := by
  induction inputs with
  | nil => rfl
  | cons fi rest ih =>
    have hfi := h fi (List.mem_cons_self fi rest)
    have hrest : ∀ x ∈ rest, ∀ m ∈ x.results, 0 ≤ m.Similarity :=
      fun x hx => h x (List.mem_cons_of_mem fi hx)
    simp only [runProxyFrames, List.filter_append, List.length_append]
    rw [processFrameProxy_counter aniListID fi.timestampSec th fi.videoName
      fi.frameName url fi.callError fi.results hfi, ih hrest]

/-- Witness for C10 amended on two frames: one accepted with positive
similarity, one accepted with similarity 0. -/
theorem C10_processed_counter_witness :
    (runProxyFrames 0 5 "proxy-a"
        [⟨5, "vid", "f1.jpg", false, [sampleCandidate 2 0 10 (9/10)]⟩,
         ⟨5, "vid", "f2.jpg", false, [sampleCandidate 2 0 10 0]⟩]).counterInc
      = ((runProxyFrames 0 5 "proxy-a"
          [⟨5, "vid", "f1.jpg", false, [sampleCandidate 2 0 10 (9/10)]⟩,
           ⟨5, "vid", "f2.jpg", false, [sampleCandidate 2 0 10 0]⟩]).appended.filter
          (fun mi => decide (0 < mi.Similarity))).length :=
  C10_processed_counter 0 5 "proxy-a"
    [⟨5, "vid", "f1.jpg", false, [sampleCandidate 2 0 10 (9/10)]⟩,
     ⟨5, "vid", "f2.jpg", false, [sampleCandidate 2 0 10 0]⟩] (by decide)

end
